import Mathlib

/-!
# Verification of the amazon-connector ingestion pipeline

Shallow embedding of the core logic of the `amazon-connector` repository
(`backend/amazon_connector/api/`) together with proofs about the claims of
its specification.  The embedding covers:

* `simple_db_save.save_simple` — the idempotent two-sink writer;
* `data_processor.AmazonDataProcessor` — currency splitting, timezone
  conversion and VAT computation;
* `views.FetchAmazonDataView.EnhancedTokenBucketRateLimiter` and
  `views.FetchAmazonDataView.CircuitBreaker`;
* `tasks.fetch_orders_for_marketplace` — the high-water-mark advancement.

Database effects (the pre-insert deduplication query and the bulk insert)
are modelled by oracle functions supplied as arguments, so that one writer
run is a pure function of its inputs and oracles.
-/

namespace AmazonConnector

/-! ## Writer (`simple_db_save.py`)

A DataFrame reaching `save_simple` is modelled by its natural-key tuples
(`(AmazonOrderId, OrderItemId)` for the MSSQL frame, `(OrderId, SKU)` for
the AZURE frame) plus a flag recording whether those key columns are
present at all (`'AmazonOrderId' in df.columns` etc.). -/

/-- Natural-key tuple of one row: `(AmazonOrderId, OrderItemId)` for MSSQL,
`(OrderId, SKU)` for AZURE. -/
abbrev RowKey := String × String

/-- A DataFrame as seen by `save_simple`: whether the two required dedup
columns exist, and the natural-key tuple of each row (in order). -/
structure Frame where
  hasKeyCols : Bool
  rows : List RowKey
  deriving Repr, DecidableEq

/-- `MARKETPLACE_TABLE_MAPPING.get(marketplace_id)` from `save_simple`. -/
def MARKETPLACE_TABLE_MAPPING (marketplaceId : String) : Option String :=
  if marketplaceId = "A1PA6795UKMFR9" then some "amazon_api_de"
  else if marketplaceId = "A1RKKUPIHCS9HS" then some "amazon_api_es"
  else if marketplaceId = "APJ6JRA9NG5V4" then some "amazon_api_it"
  else if marketplaceId = "A1F83G8C2ARO7P" then some "amazon_api_uk"
  else if marketplaceId = "ATVPDKIKX0DER" then some "amazon_api_usa"
  else if marketplaceId = "A2EUQ1WTGCTBG2" then some "amazon_api_ca"
  else if marketplaceId = "A13V1IB3VIYZZH" then some "amazon_api_fr_test"
  else none

/-- `df.drop_duplicates(subset=[k1,k2], keep='first')` on the key tuples:
keep the first occurrence of every key. -/
def dedupKeepFirst {α : Type} [DecidableEq α] : List α → List α → List α
  | _, [] => []
  | seen, k :: ks =>
    if k ∈ seen then dedupKeepFirst seen ks
    else k :: dedupKeepFirst (k :: seen) ks

/-- `series.unique().tolist()`: first occurrence of every value, in order. -/
def listUnique {α : Type} [DecidableEq α] (xs : List α) : List α :=
  dedupKeepFirst [] xs

/-- The `order_ids` list a sink branch sends to its dedup query: the unique
`AmazonOrderId`s (resp. `OrderId`s) of the intra-deduplicated frame. -/
def branchOrderIds (df : Frame) : List String :=
  listUnique ((dedupKeepFirst ([] : List RowKey) df.rows).map Prod.fst)

/-- One sink's result dictionary (`results['mssql_result']` /
`results['azure_result']`).  The failure dictionaries in the source do not
carry a `records_skipped` key; the summary code reads it with
`.get('records_skipped', 0)`, so a missing key is modelled as `0`. -/
structure SinkResult where
  success : Bool
  records_saved : Nat
  records_skipped : Nat
  deriving Repr, DecidableEq

/-- The database-facing effects of one sink: the pre-insert deduplication
`SELECT DISTINCT` (which may fail), and the `to_sql` append after its
retries are exhausted (`true` = rows committed, `false` = final failure). -/
structure SinkOracle where
  queryExisting : List String → Except Unit (List RowKey)
  insertOk : List RowKey → Bool

/-- Outcome of one sink branch of `save_simple`: the result dictionary
(`none` when the branch was skipped and `results['*_result']` stayed
`None`), the `*_success` flag, and the contribution to
`total_records_saved`. -/
structure BranchOutcome where
  result : Option SinkResult
  success : Bool
  savedCount : Nat
  deriving Repr, DecidableEq

/-- The save phase of one sink branch (`if not df_clean.empty: ... to_sql
... `): attempt the insert on the cleaned rows, or keep the result the
dedup phase left behind when the cleaned frame is empty. -/
def savePhase (oracle : SinkOracle) (dfClean : List RowKey)
    (originalCount : Nat) (pending : Option SinkResult) (pendingSuccess : Bool) :
    BranchOutcome :=
  if dfClean.isEmpty then
    ⟨pending, pendingSuccess, 0⟩
  else if oracle.insertOk dfClean then
    ⟨some ⟨true, dfClean.length, originalCount - dfClean.length⟩, true, dfClean.length⟩
  else
    ⟨some ⟨false, 0, 0⟩, false, 0⟩

/-- One sink branch of `save_simple` (the MSSQL and AZURE branches follow
the same shape; the AZURE branch is this with `tableName = some
"stg_tr_amazon_raw"`).  Mirrors the source's control flow: branch guard,
safety check on the key columns, intra-frame dedup, database dedup query
(aborting the sink on failure), then the save phase. -/
def sinkBranch (oracle : SinkOracle) (tableName : Option String) (df : Frame) :
    BranchOutcome :=
  match tableName with
  | none => ⟨none, false, 0⟩
  | some _ =>
    if df.rows.isEmpty then ⟨none, false, 0⟩
    else
      let originalCount := df.rows.length
      if ¬ df.hasKeyCols then
        -- SAFETY CHECK failed: abort, df_clean cleared to an empty frame
        -- (which then has no key columns, so the dedup block is skipped too)
        ⟨some ⟨false, 0, 0⟩, false, 0⟩
      else
        let dfDedup := dedupKeepFirst [] df.rows
        let orderIds := listUnique (dfDedup.map Prod.fst)
        if orderIds.isEmpty then
          -- `if order_ids:` guard false: no dedup query, straight to save
          savePhase oracle dfDedup originalCount none false
        else
          match oracle.queryExisting orderIds with
          | .error _ =>
            -- dedup query failed: abort this sink, never insert
            savePhase oracle [] originalCount (some ⟨false, 0, 0⟩) false
          | .ok existing =>
            if existing.isEmpty then
              savePhase oracle dfDedup originalCount none false
            else
              let dfNew := dfDedup.filter (fun k => decide (k ∉ existing))
              if dfNew.isEmpty then
                -- all records already exist: success with 0 saved
                savePhase oracle [] originalCount
                  (some ⟨true, 0, originalCount⟩) true
              else
                savePhase oracle dfNew originalCount none false

/-- The result dictionary of `save_simple`. -/
structure SaveResults where
  success : Bool
  mssql_result : Option SinkResult
  azure_result : Option SinkResult
  total_records_saved : Nat
  mssql_success : Bool
  azure_success : Bool
  deriving Repr, DecidableEq

/-- `save_simple(mssql_df, azure_df, marketplace_id)`: run the MSSQL branch
(guarded by the table mapping), then the AZURE branch, and combine —
overall `success` iff at least one sink succeeded. -/
def saveSimple (msink asink : SinkOracle) (mssqlDf azureDf : Frame)
    (marketplaceId : String) : SaveResults :=
  let m := sinkBranch msink (MARKETPLACE_TABLE_MAPPING marketplaceId) mssqlDf
  let a := sinkBranch asink (some "stg_tr_amazon_raw") azureDf
  { success := m.success || a.success
    mssql_result := m.result
    azure_result := a.result
    total_records_saved := m.savedCount + a.savedCount
    mssql_success := m.success
    azure_success := a.success }

/-! ## Pricing split (`data_processor._split_pricing_columns`)

The per-cell splitting of a flat pricing value such as `"12.01 GBP"` into an
amount and a currency code.  The Python code first handles `NaN`/`None`/`''`
cells, then strips the string and applies
`re.match(r'^(-?[0-9]+\.?[0-9]*)\s*([A-Z]{3})?$', s)`; on failure it falls
back to `re.findall(r'-?[0-9]+\.?[0-9]*', s)` for the amount and
`re.search(r'[A-Z]{3}', s)` for the currency.  The character classes of
those regexes are modelled over code points (`[0-9]`, `[A-Z]`, and the
ASCII whitespace class of `\s`). -/

/-- `[0-9]` of the pricing regexes. -/
def isDigitChar (c : Char) : Bool := 48 ≤ c.toNat && c.toNat ≤ 57

/-- `[A-Z]` of the pricing regexes. -/
def isUpperChar (c : Char) : Bool := 65 ≤ c.toNat && c.toNat ≤ 90

/-- The ASCII part of the `\s` class: space, tab, LF, VT, FF, CR. -/
def isPySpace (c : Char) : Bool := c.toNat = 32 || (9 ≤ c.toNat && c.toNat ≤ 13)

/-- Greedy character span: the longest matching run and the remainder. -/
def takeWhileP (p : Char → Bool) : List Char → List Char × List Char
  | [] => ([], [])
  | c :: cs =>
    if p c then
      let r := takeWhileP p cs
      (c :: r.1, r.2)
    else ([], c :: cs)

/-- Consume the optional leading `-` of `-?`. -/
def splitSign : List Char → Bool × List Char
  | [] => (false, [])
  | c :: cs => if c = '-' then (true, cs) else (false, c :: cs)

/-- Consume the optional `.` of `\.?`. -/
def splitDot : List Char → Bool × List Char
  | [] => (false, [])
  | c :: cs => if c = '.' then (true, cs) else (false, c :: cs)

/-- Digit run as a natural number. -/
def digitsToNat (ds : List Char) : Nat :=
  ds.foldl (fun acc c => 10 * acc + (c.toNat - 48)) 0

/-- The information content of a matched `-?[0-9]+\.?[0-9]*` group: the
sign, the integer digits and the fractional digits. -/
structure NumberToken where
  neg : Bool
  intPart : List Char
  fracPart : List Char
  deriving Repr, DecidableEq

/-- `float()` of a matched amount group. -/
def decimalValue (t : NumberToken) : ℚ :=
  (cond t.neg (-1) 1) *
    ((digitsToNat t.intPart : ℚ) + (digitsToNat t.fracPart : ℚ) / 10 ^ t.fracPart.length)

/-- `re.match(r'^(-?[0-9]+\.?[0-9]*)\s*([A-Z]{3})?$', s)`: the matched
amount group and the optional matched currency group.  (The regex is
deterministic on its alternatives: the digit runs are greedy, and the
optional 3-letter group succeeds exactly when what remains after the
whitespace is three uppercase letters, the empty remainder leaving the
group unmatched.) -/
def regexFullMatch (cs : List Char) : Option (NumberToken × Option (List Char)) :=
  let sn := splitSign cs
  let d1 := takeWhileP isDigitChar sn.2
  if d1.1.isEmpty then none
  else
    let dt := splitDot d1.2
    let d2 := takeWhileP isDigitChar dt.2
    let rest := d2.2.dropWhile isPySpace
    match rest with
    | [] => some (⟨sn.1, d1.1, d2.1⟩, none)
    | [a, b, c] =>
      if isUpperChar a && isUpperChar b && isUpperChar c then
        some (⟨sn.1, d1.1, d2.1⟩, some [a, b, c])
      else none
    | _ => none

/-- First match of `re.findall(r'-?[0-9]+\.?[0-9]*', s)`: scan left to
right; at a `-` the match fires only if a digit follows. -/
def findFirstNumber : List Char → Option NumberToken
  | [] => none
  | c :: cs =>
    if c = '-' then
      match cs with
      | [] => none
      | d :: _ =>
        if isDigitChar d then
          let d1 := takeWhileP isDigitChar cs
          let dt := splitDot d1.2
          some ⟨true, d1.1, (takeWhileP isDigitChar dt.2).1⟩
        else findFirstNumber cs
    else if isDigitChar c then
      let d1 := takeWhileP isDigitChar (c :: cs)
      let dt := splitDot d1.2
      some ⟨false, d1.1, (takeWhileP isDigitChar dt.2).1⟩
    else findFirstNumber cs

/-- `re.search(r'[A-Z]{3}', s)`: the leftmost run of three uppercase
letters. -/
def findCcy : List Char → Option (List Char)
  | a :: b :: c :: cs =>
    if isUpperChar a && isUpperChar b && isUpperChar c then some [a, b, c]
    else findCcy (b :: c :: cs)
  | _ => none

/-- Python `str.strip()` restricted to the ASCII whitespace class. -/
def pyStrip (cs : List Char) : List Char :=
  ((cs.dropWhile isPySpace).reverse.dropWhile isPySpace).reverse

/-- The string `'USD'`, as characters. -/
def usdChars : List Char := ['U', 'S', 'D']

/-- The non-default branch of the per-cell split: strip, try the full
regex, else fall back to the first number and a searched currency code
(the empty string when none is found), else the `(0.0, 'USD')` default. -/
def splitPricingChars (cs : List Char) : ℚ × Option (List Char) :=
  let s := pyStrip cs
  match regexFullMatch s with
  | some (num, ccy) => (decimalValue num, ccy)
  | none =>
    match findFirstNumber s with
    | some num =>
      (decimalValue num,
        some (match findCcy s with
          | some l => l
          | none => []))
    | none => (0, some usdChars)

/-- The per-cell split of `_split_pricing_columns` (strings as character
lists): a `NaN`/`None` or empty-string cell yields `(0.0, 'USD')`; any
other cell goes through the regex path.  The currency component is `none`
exactly where the Python code appends `None`. -/
def splitPricingValue : Option (List Char) → ℚ × Option (List Char)
  | none => (0, some usdChars)
  | some s => if s = [] then (0, some usdChars) else splitPricingChars s

/-- The amount literal `A` rendered back to characters: optional minus,
integer digits, then `.` and the fractional digits when there are any. -/
def renderAmount (neg : Bool) (ds fs : List Char) : List Char :=
  (cond neg ['-'] []) ++ ds ++ (if fs.isEmpty then [] else '.' :: fs)

/-! ## Timezone conversion (`data_processor.py`)

Naive Python `datetime`s are modelled as an integer count of seconds since
1970-01-01 00:00:00 in the proleptic Gregorian calendar: `datetime`
comparison becomes integer comparison and `timedelta` addition integer
addition.  Civil dates are mapped to day numbers with the standard
days-from-civil algorithm. -/

/-- Day number (days since 1970-01-01) of the civil date `y-m-d`. -/
def daysFromCivil (y m d : Int) : Int :=
  let y2 := if m ≤ 2 then y - 1 else y
  let era := Int.fdiv y2 400
  let yoe := y2 - era * 400
  let mp := (m + 9) % 12
  let doy := Int.fdiv (153 * mp + 2) 5 + d - 1
  let doe := yoe * 365 + Int.fdiv yoe 4 - Int.fdiv yoe 100 + doy
  era * 146097 + doe - 719468

/-- The civil year containing day number `z` (inverse direction of
`daysFromCivil`). -/
def civilYearOfDays (z : Int) : Int :=
  let z2 := z + 719468
  let era := Int.fdiv z2 146097
  let doe := z2 - era * 146097
  let yoe := Int.fdiv (doe - Int.fdiv doe 1460 + Int.fdiv doe 36524 - Int.fdiv doe 146096) 365
  let y := yoe + era * 400
  let doy := doe - (365 * yoe + Int.fdiv yoe 4 - Int.fdiv yoe 100)
  let mp := Int.fdiv (5 * doy + 2) 153
  let m := (mp + 2) % 12 + 1
  if m ≤ 2 then y + 1 else y

/-- `datetime(y, m, d, hh, mi, ss)` as seconds. -/
def mkDT (y m d hh mi ss : Int) : Int :=
  daysFromCivil y m d * 86400 + hh * 3600 + mi * 60 + ss

/-- `dt.year` of a seconds-encoded datetime. -/
def dtYear (t : Int) : Int := civilYearOfDays (Int.fdiv t 86400)

/-- Python `date.weekday()` (Monday = 0 … Sunday = 6) of a day number;
1970-01-01 was a Thursday (= 3). -/
def weekdayPy (days : Int) : Int := (days + 3) % 7

/-- `AmazonDataProcessor.last_sunday_of_march`: March 31 of the year,
moved back `(weekday+1) % 7` days, at 01:00:00. -/
def last_sunday_of_march (year : Int) : Int :=
  let d := daysFromCivil year 3 31
  (d - (weekdayPy d + 1) % 7) * 86400 + 3600

/-- `AmazonDataProcessor.last_sunday_of_october`: October 31 of the year,
moved back `(weekday+1) % 7` days, at 01:00:00. -/
def last_sunday_of_october (year : Int) : Int :=
  let d := daysFromCivil year 10 31
  (d - (weekdayPy d + 1) % 7) * 86400 + 3600

/-- `AmazonDataProcessor.is_dst`: `dst_start <= date < dst_end` for the
boundaries of the date's own year. -/
def is_dst (t : Int) : Bool :=
  decide (last_sunday_of_march (dtYear t) ≤ t ∧ t < last_sunday_of_october (dtYear t))

/-- Offset logic of `AmazonDataProcessor.convert_utc_to_bst` on a parsed
timestamp: `+1h` (BST) in the DST window, `+0` (GMT) outside. -/
def convert_utc_to_bst (t : Int) : Int :=
  if is_dst t then t + 3600 else t

/-- Offset logic of `AmazonDataProcessor.convert_utc_to_mest` on a parsed
timestamp: `+2h` (MEST) in the DST window, `+1h` (CET) outside. -/
def convert_utc_to_mest (t : Int) : Int :=
  if is_dst t then t + 7200 else t + 3600

/-- `AmazonDataProcessor._convert_timezone_optimized`, per element: the
`"UK"` marketplace goes through `convert_utc_to_bst`, every other
marketplace through `convert_utc_to_mest`. -/
def tzConvertStage (marketplaceName : String) (t : Int) : Int :=
  if marketplaceName = "UK" then convert_utc_to_bst t else convert_utc_to_mest t

/-! ### Reference timezone rules

The spec's zone semantics (IANA rules): Europe/London and Europe/Paris
switch at the last Sunday of March / October, 01:00 UTC;
America/Los_Angeles switches at the second Sunday of March, 02:00 local
standard (10:00 UTC) and the first Sunday of November, 02:00 local
daylight (09:00 UTC).  These definitions follow the spec's words and are
compared against the code's conversion. -/

/-- The latest Sunday on or before day number `d` (`s ≡ 3 [ZMOD 7]` is a
Sunday). -/
def lastSundayOnOrBefore (d : Int) : Int := d - (d + 4) % 7

/-- The earliest Sunday on or after day number `d`. -/
def firstSundayOnOrAfter (d : Int) : Int := d + (3 - d) % 7

/-- The three zones the spec assigns to the marketplaces. -/
inductive Zone where
  | london
  | paris
  | losAngeles
  deriving Repr, DecidableEq

/-- EU DST start: last Sunday of March, 01:00 UTC. -/
def euDstStartSec (y : Int) : Int :=
  lastSundayOnOrBefore (daysFromCivil y 3 31) * 86400 + 3600

/-- EU DST end: last Sunday of October, 01:00 UTC. -/
def euDstEndSec (y : Int) : Int :=
  lastSundayOnOrBefore (daysFromCivil y 10 31) * 86400 + 3600

/-- US DST start: second Sunday of March, 02:00 PST = 10:00 UTC. -/
def usDstStartSec (y : Int) : Int :=
  (firstSundayOnOrAfter (daysFromCivil y 3 1) + 7) * 86400 + 36000

/-- US DST end: first Sunday of November, 02:00 PDT = 09:00 UTC. -/
def usDstEndSec (y : Int) : Int :=
  firstSundayOnOrAfter (daysFromCivil y 11 1) * 86400 + 32400

/-- The zone's UTC offset (seconds to add to UTC to obtain local wall
time) at a UTC instant. -/
def zoneOffsetAt : Zone → Int → Int
  | .london, t =>
    if euDstStartSec (dtYear t) ≤ t ∧ t < euDstEndSec (dtYear t) then 3600 else 0
  | .paris, t =>
    if euDstStartSec (dtYear t) ≤ t ∧ t < euDstEndSec (dtYear t) then 7200 else 3600
  | .losAngeles, t =>
    if usDstStartSec (dtYear t) ≤ t ∧ t < usDstEndSec (dtYear t) then -25200 else -28800

/-- The zone the spec assigns to each marketplace name: UK → London,
US/CA → Los Angeles, the EU marketplaces → Paris. -/
def specZoneOf (mkt : String) : Zone :=
  if mkt = "UK" then .london
  else if mkt = "US" ∨ mkt = "CA" then .losAngeles
  else .paris

/-- A UTC instant expressed as local wall time of the zone. -/
def utcToZoneWall (z : Zone) (t : Int) : Int := t + zoneOffsetAt z t

/-- The instant denoted by the code's converted wall time, read in the
marketplace's spec-assigned zone: converted wall time minus that zone's
offset at the source instant. -/
def convertedInstant (mkt : String) (t : Int) : Int :=
  tzConvertStage mkt t - zoneOffsetAt (specZoneOf mkt) t

/-! ## Circuit breaker (`views.FetchAmazonDataView.CircuitBreaker`)

Wall-clock timestamps (`time.time()`) are modelled as integers. -/

/-- The breaker's `self.state` strings. -/
inductive CBState where
  | closed
  | opened
  | halfOpen
  deriving Repr, DecidableEq

/-- The breaker's mutable fields together with its constructor
parameters. -/
structure CircuitBreaker where
  failure_threshold : Nat
  recovery_timeout : Int
  failure_count : Nat
  last_failure_time : Option Int
  state : CBState
  deriving Repr, DecidableEq

/-- What `call` did: refused fast (`Circuit breaker is OPEN`), returned
the function's result, or re-raised the function's exception. -/
inductive CallResult where
  | refused
  | returned
  | raised
  deriving Repr, DecidableEq

/-- `CircuitBreaker.__init__`. -/
def CircuitBreaker.init (threshold : Nat) (timeout : Int) : CircuitBreaker :=
  ⟨threshold, timeout, 0, none, .closed⟩

/-- The `try/except` body of `CircuitBreaker.call`: a success resets the
counter only out of HALF_OPEN; a failure increments the counter, stamps
the time, and opens the breaker at the threshold. -/
def runProtected (cb : CircuitBreaker) (now : Int) (funcOk : Bool) :
    CircuitBreaker × CallResult :=
  if funcOk then
    if cb.state = .halfOpen then
      ({ cb with state := .closed, failure_count := 0 }, .returned)
    else (cb, .returned)
  else
    let fc := cb.failure_count + 1
    let cb2 := { cb with failure_count := fc, last_failure_time := some now }
    if cb.failure_threshold ≤ fc then
      ({ cb2 with state := .opened }, .raised)
    else (cb2, .raised)

/-- `CircuitBreaker.call(func)`: the OPEN gate (recovery after
`recovery_timeout` has strictly elapsed), then the protected execution of
`func` (whose outcome is the `funcOk` argument). -/
def CircuitBreaker.call (cb : CircuitBreaker) (now : Int) (funcOk : Bool) :
    CircuitBreaker × CallResult :=
  match cb.state, cb.last_failure_time with
  | .opened, some lft =>
    if cb.recovery_timeout < now - lft then
      runProtected { cb with state := .halfOpen } now funcOk
    else (cb, .refused)
  | .opened, none => (cb, .refused)
  | _, _ => runProtected cb now funcOk

/-- A sequence of `call`s: each entry is the wall-clock time and the
outcome of the protected function. -/
def cbRunTrace (cb : CircuitBreaker) (tr : List (Int × Bool)) : CircuitBreaker :=
  tr.foldl (fun c p => (c.call p.1 p.2).1) cb

/-! ## Rate limiter (`views.FetchAmazonDataView.EnhancedTokenBucketRateLimiter`) -/

/-- The limiter's mutable fields together with its constructor
parameters.  Token counts and wall-clock times are exact rationals. -/
structure RateLimiter where
  rate_limit : ℚ
  burst_limit : ℚ
  tokens : ℚ
  last_update : ℚ
  total_requests : Nat
  throttled_requests : Nat
  deriving Repr, DecidableEq

/-- The `priority` argument of `acquire`. -/
inductive RLPriority where
  | high
  | normal
  | low
  deriving Repr, DecidableEq

/-- The priority adjustment factors of `acquire` (high ×0.9, low ×1.2,
normal unadjusted). -/
def priorityFactor : RLPriority → ℚ
  | .high => 9 / 10
  | .normal => 1
  | .low => 6 / 5

/-- `EnhancedTokenBucketRateLimiter.acquire(priority)`: refill by elapsed
time times rate, capped at the burst limit; if fewer than one token is
available, sleep the priority-adjusted wait and set the stored tokens to
`0.0`, else consume one token.  Returns the new state and the slept
seconds (`0` when not throttled). -/
def RateLimiter.acquire (rl : RateLimiter) (now : ℚ) (priority : RLPriority) :
    RateLimiter × ℚ :=
  let time_passed := now - rl.last_update
  let new_tokens := time_passed * rl.rate_limit
  let refilled := min rl.burst_limit (rl.tokens + new_tokens)
  let rl1 := { rl with tokens := refilled
                       last_update := now
                       total_requests := rl.total_requests + 1 }
  if refilled < 1 then
    let base_wait := (1 - refilled) / rl.rate_limit
    let wait := match priority with
      | .high => base_wait * (9 / 10)
      | .low => base_wait * (6 / 5)
      | .normal => base_wait
    ({ rl1 with tokens := 0
                throttled_requests := rl.throttled_requests + 1 }, wait)
  else
    ({ rl1 with tokens := refilled - 1 }, 0)

/-! ## VAT stage (`data_processor._calculate_vat_vectorized`) -/

/-- `AmazonDataProcessor.VAT_RATES`, in the dictionary's insertion order:
`(channel, rate, multiplier, percentage)`. -/
def VAT_RATES : List (String × ℚ × ℚ × ℚ) :=
  [("Amazon.es", 21 / 100, 121 / 100, 21 / 121),
   ("Amazon.de", 19 / 100, 119 / 100, 19 / 119),
   ("Amazon.it", 22 / 100, 122 / 100, 22 / 122),
   ("Amazon.co.uk", 20 / 100, 120 / 100, 20 / 120)]

/-- The columns of one merged row that the VAT stage reads.  `none` models
a `NaN` after `pd.to_numeric(..., errors='coerce')` (resp. a missing
`SalesChannel`). -/
structure VatRow where
  salesChannel : Option String
  promotionDiscountAmount : Option ℚ
  itemPriceAmount : Option ℚ
  itemTaxAmount : Option ℚ
  deriving Repr, DecidableEq

/-- The six columns the VAT stage computes. -/
structure VatComputed where
  promotionalTax : ℚ
  vatPct : ℚ
  price : ℚ
  vat : ℚ
  unitPriceVatExcl : ℚ
  itemTotal : ℚ
  deriving Repr, DecidableEq

/-- The per-row effect of one marketplace iteration of the vectorized
loop, on a row matched by the mask (`fillna(0)` applied to the three
amounts first). -/
def vatApplyOne (pd ip it mult pct : ℚ) : VatComputed :=
  let promoTax0 := pd * mult - pd
  let vatPct := if it = 0 then 0 else pct
  let promoTax := if it = 0 then 0 else promoTax0
  let price := ip + promoTax
  let vat := price * vatPct
  let itemTotal := price - pd - promoTax
  let upe := if promoTax = 0 ∧ pd = 0 then price - it else price - vat
  ⟨promoTax, vatPct, price, vat, upe, itemTotal⟩

/-- The whole VAT stage for one row, before rounding: the computed columns
start at `0.0` and each marketplace iteration overwrites them on the rows
whose `SalesChannel` equals the marketplace channel or `'Non-Amazon'`. -/
def vatStageRow (row : VatRow) : VatComputed :=
  VAT_RATES.foldl
    (fun acc entry =>
      if row.salesChannel = some entry.1 ∨ row.salesChannel = some "Non-Amazon" then
        vatApplyOne (row.promotionDiscountAmount.getD 0) (row.itemPriceAmount.getD 0)
          (row.itemTaxAmount.getD 0) entry.2.2.1 entry.2.2.2
      else acc)
    ⟨0, 0, 0, 0, 0, 0⟩

/-- `numpy`/pandas round-half-to-even of `q` to an integer. -/
def roundHalfEven (q : ℚ) : ℤ :=
  let f := ⌊q⌋
  let frac := q - f
  if frac < 1 / 2 then f
  else if 1 / 2 < frac then f + 1
  else if Even f then f else f + 1

/-- `.round(2)` of one cell. -/
def round2 (q : ℚ) : ℚ := (roundHalfEven (q * 100) : ℚ) / 100

/-- The VAT stage including the final `df[calc_columns].round(2)` (which
covers `Promotional_Tax`, `Price`, `unit_price(vat_exclusive)` and
`item_total`, but neither `vat%` nor `VAT`). -/
def vatStageRowRounded (row : VatRow) : VatComputed :=
  let c := vatStageRow row
  { c with promotionalTax := round2 c.promotionalTax
           price := round2 c.price
           unitPriceVatExcl := round2 c.unitPriceVatExcl
           itemTotal := round2 c.itemTotal }

/-- The computed columns as they appear in the MSSQL projection after
`_create_mssql_dataframe`'s renames (`VAT → calculated_vat`,
`Price → unit_price(vat_inclusive)`). -/
structure MssqlComputed where
  promotional_tax : ℚ
  vat_pct : ℚ
  unit_price_vat_inclusive : ℚ
  calculated_vat : ℚ
  unit_price_vat_exclusive : ℚ
  item_total : ℚ
  deriving Repr, DecidableEq

/-- The rename step of the MSSQL projection on the computed columns. -/
def toMssqlComputed (c : VatComputed) : MssqlComputed :=
  ⟨c.promotionalTax, c.vatPct, c.price, c.vat, c.unitPriceVatExcl, c.itemTotal⟩

/-- The AZURE frame's `Total` column: a copy of
`unit_price(vat_inclusive)`. -/
def azureTotalOf (c : VatComputed) : ℚ := c.price

/-! ## High-water-mark advancement (`tasks.fetch_orders_for_marketplace`)

The marketplace high-water mark (`MarketplaceLastRun.last_run`) and the UTC
day windows, with instants as seconds (as in the timezone module). -/

/-- `tasks.SEED_START_LAST_RUN = 2023-11-01T23:59:59Z`. -/
def SEED_START_LAST_RUN : Int := mkDT 2023 11 1 23 59 59

/-- `tasks._day_window_after(last_run)`: the next day's
`[00:00:00, 23:59:59]` window, from the seed when `last_run` is absent. -/
def dayWindowAfter (lastRun : Option Int) : Int × Int :=
  let lr := lastRun.getD SEED_START_LAST_RUN
  let nextDay := Int.fdiv lr 86400 + 1
  (nextDay * 86400, nextDay * 86400 + 86399)

/-- HTTP success of `POST /api/fetch-data/`
(`views.FetchAmazonDataView.post`): when the fetch phase succeeds
(`result['success']`) the view returns `JsonResponse(..., status 200)`
whatever the processing and database-save results were (a save failure or
a processing exception only changes the payload); when the fetch phase
fails it returns the fetch error with a non-2xx status. -/
def fetchDataHttpOk (fetchOk : Bool) (saveRes : Option SaveResults) : Bool :=
  fetchOk

/-- What one run of `fetch_orders_for_marketplace` did. -/
inductive TaskResult where
  | skipped
  | okRun
  | errorRaised
  deriving Repr, DecidableEq

/-- One run of `tasks.fetch_orders_for_marketplace` over the persisted
`last_run`: the idempotency guard skips a non-expected window; on a 2xx
response of `/api/fetch-data/`, `last_run` is advanced to the requested
window's end (re-checking the guard — which in this single-run model reads
the same `last_run`); otherwise an exception is raised for Celery retry
and `last_run` is untouched. -/
def fetch_orders_for_marketplace (lastRun : Option Int) (startReq endReq : Int)
    (fetchOk : Bool) (saveRes : Option SaveResults) : Option Int × TaskResult :=
  if (dayWindowAfter lastRun).1 ≠ startReq then (lastRun, .skipped)
  else if fetchDataHttpOk fetchOk saveRes then
    (if (dayWindowAfter lastRun).1 = startReq then some endReq else lastRun, .okRun)
  else (lastRun, .errorRaised)

/-! ### Writer lemmas -/

theorem mem_dedupKeepFirst {α : Type} [DecidableEq α] (seen : List α)
    (xs : List α) (a : α) : a ∈ dedupKeepFirst seen xs ↔ a ∈ xs ∧ a ∉ seen := by
  induction xs generalizing seen with
  | nil => simp [dedupKeepFirst]
  | cons x xs ih =>
    by_cases hx : x ∈ seen
    · simp only [dedupKeepFirst, if_pos hx, ih, List.mem_cons]
      constructor
      · rintro ⟨h1, h2⟩; exact ⟨Or.inr h1, h2⟩
      · rintro ⟨h1 | h1, h2⟩
        · exact absurd (h1 ▸ hx) h2
        · exact ⟨h1, h2⟩
    · simp only [dedupKeepFirst, if_neg hx, List.mem_cons, ih]
      by_cases hax : a = x
      · subst hax; simp [hx]
      · simp [hax]

theorem dedupKeepFirst_eq_nil_iff {α : Type} [DecidableEq α] (xs : List α) :
    dedupKeepFirst [] xs = [] ↔ xs = [] := by
  cases xs with
  | nil => simp [dedupKeepFirst]
  | cons x xs => simp [dedupKeepFirst]

theorem branchOrderIds_ne_nil {df : Frame} (hne : df.rows ≠ []) :
    branchOrderIds df ≠ [] := by
  intro h
  have h1 : (dedupKeepFirst ([] : List RowKey) df.rows).map Prod.fst = [] :=
    (dedupKeepFirst_eq_nil_iff _).mp h
  have h2 : dedupKeepFirst ([] : List RowKey) df.rows = [] :=
    List.map_eq_nil_iff.mp h1
  exact hne ((dedupKeepFirst_eq_nil_iff _).mp h2)

theorem savePhase_nil (oracle : SinkOracle) (originalCount : Nat)
    (pending : Option SinkResult) (ps : Bool) :
    savePhase oracle [] originalCount pending ps = ⟨pending, ps, 0⟩ := rfl

/-- A sink branch whose pre-insert dedup query finds every batch key already
present reports success with zero rows saved and the whole input skipped. -/
theorem sinkBranch_all_existing (oracle : SinkOracle) (tbl : String) (df : Frame)
    (existing : List RowKey)
    (hne : df.rows ≠ []) (hk : df.hasKeyCols = true)
    (hq : oracle.queryExisting (branchOrderIds df) = .ok existing)
    (hall : ∀ k ∈ df.rows, k ∈ existing) :
    sinkBranch oracle (some tbl) df = ⟨some ⟨true, 0, df.rows.length⟩, true, 0⟩ := by
  have hrows : df.rows.isEmpty = false := by
    simp [List.isEmpty_iff, hne]
  have hids : (branchOrderIds df).isEmpty = false := by
    simp [List.isEmpty_iff, branchOrderIds_ne_nil hne]
  have hex : existing.isEmpty = false := by
    obtain ⟨k, hkmem⟩ := List.exists_mem_of_ne_nil df.rows hne
    have : k ∈ existing := hall k hkmem
    simp [List.isEmpty_iff]
    rintro rfl
    simp at this
  have hfilter : (dedupKeepFirst ([] : List RowKey) df.rows).filter
      (fun k => decide (k ∉ existing)) = [] := by
    rw [List.filter_eq_nil_iff]
    intro k hkmem
    have : k ∈ df.rows := ((mem_dedupKeepFirst [] df.rows k).mp hkmem).1
    simp [hall k this]
  simp only [sinkBranch, hrows, Bool.false_eq_true, if_false, hk, not_true_eq_false,
    branchOrderIds] at *
  rw [if_neg (by simp [hids])]
  rw [hq]
  simp only [hex, Bool.false_eq_true, if_false, hfilter, List.isEmpty_nil, if_true]
  rfl

/-- A sink branch whose pre-insert dedup query fails aborts: failure result,
no rows saved. -/
theorem sinkBranch_query_failure (oracle : SinkOracle) (tbl : String) (df : Frame)
    (hne : df.rows ≠ []) (hk : df.hasKeyCols = true)
    (hq : oracle.queryExisting (branchOrderIds df) = .error ()) :
    sinkBranch oracle (some tbl) df = ⟨some ⟨false, 0, 0⟩, false, 0⟩ := by
  have hrows : df.rows.isEmpty = false := by
    simp [List.isEmpty_iff, hne]
  have hids : (branchOrderIds df).isEmpty = false := by
    simp [List.isEmpty_iff, branchOrderIds_ne_nil hne]
  simp only [sinkBranch, hrows, Bool.false_eq_true, if_false, hk, not_true_eq_false,
    branchOrderIds] at *
  rw [if_neg (by simp [hids])]
  rw [hq]
  rfl

/-- A sink branch that is skipped (no table mapping, or an empty frame)
leaves no result dictionary and reports failure, consulting no oracle. -/
theorem sinkBranch_skipped (oracle : SinkOracle) (tn : Option String) (df : Frame)
    (h : df.rows = [] ∨ tn = none) :
    sinkBranch oracle tn df = ⟨none, false, 0⟩ := by
  cases tn with
  | none => rfl
  | some t =>
    rcases h with h | h
    · simp [sinkBranch, h]
    · exact absurd h (by simp)

/-! ### Pricing split lemmas -/

theorem takeWhileP_append (p : Char → Bool) (ds rest : List Char)
    (hall : ∀ c ∈ ds, p c = true)
    (hrest : ∀ c ∈ rest.head?, p c = false) :
    takeWhileP p (ds ++ rest) = (ds, rest) := by
  induction ds with
  | nil =>
    simp only [List.nil_append]
    cases rest with
    | nil => rfl
    | cons c cs =>
      have hc := hrest c (by simp)
      simp [takeWhileP, hc]
  | cons d ds ih =>
    have hd := hall d (by simp)
    have ih' := ih (fun c hc => hall c (by simp [hc]))
    simp only [List.cons_append, takeWhileP, hd, if_true, List.append_eq, ih']

theorem dropWhileP_eq_self (p : Char → Bool) (l : List Char)
    (h : ∀ c ∈ l.head?, p c = false) : l.dropWhile p = l := by
  cases l with
  | nil => rfl
  | cons c cs => simp [List.dropWhile_cons, h c (by simp)]

theorem pyStrip_eq_self (l : List Char)
    (h1 : ∀ c ∈ l.head?, isPySpace c = false)
    (h2 : ∀ c ∈ l.getLast?, isPySpace c = false) :
    pyStrip l = l := by
  unfold pyStrip
  rw [dropWhileP_eq_self _ _ h1]
  rw [dropWhileP_eq_self _ _ (by simpa [List.head?_reverse] using h2)]
  exact List.reverse_reverse l

theorem isPySpace_of_digit {c : Char} (h : isDigitChar c = true) :
    isPySpace c = false := by
  simp only [isDigitChar, Bool.and_eq_true, decide_eq_true_eq] at h
  simp only [isPySpace, Bool.or_eq_false_iff, Bool.and_eq_false_iff,
    decide_eq_false_iff_not]
  omega

theorem isPySpace_of_upper {c : Char} (h : isUpperChar c = true) :
    isPySpace c = false := by
  simp only [isUpperChar, Bool.and_eq_true, decide_eq_true_eq] at h
  simp only [isPySpace, Bool.or_eq_false_iff, Bool.and_eq_false_iff,
    decide_eq_false_iff_not]
  omega

theorem isDigitChar_ne_dash {c : Char} (h : isDigitChar c = true) : c ≠ '-' := by
  rintro rfl
  simp [isDigitChar] at h

theorem isDigitChar_of_mem_head? {p : List Char} {c : Char}
    (hall : ∀ x ∈ p, isDigitChar x = true) (h : c ∈ p.head?) :
    isDigitChar c = true := by
  cases p with
  | nil => simp at h
  | cons a as =>
    simp only [List.head?_cons, Option.mem_def, Option.some.injEq] at h
    exact h ▸ hall a (by simp)

/-- Evaluation of the full-match regex on a rendered amount followed by an
arbitrary suffix whose first character is neither a digit nor a dot. -/
theorem regexFullMatch_render (neg : Bool) (ds fs rest : List Char)
    (hds : ds ≠ []) (hdd : ∀ c ∈ ds, isDigitChar c = true)
    (hfd : ∀ c ∈ fs, isDigitChar c = true)
    (hrest : ∀ c ∈ rest.head?, isDigitChar c = false ∧ c ≠ '.') :
    regexFullMatch (renderAmount neg ds fs ++ rest) =
      (let tail := rest.dropWhile isPySpace
       match tail with
       | [] => some (⟨neg, ds, fs⟩, none)
       | [a, b, c] =>
         if isUpperChar a && isUpperChar b && isUpperChar c then
           some (⟨neg, ds, fs⟩, some [a, b, c])
         else none
       | _ => none) := by
  have hsign : splitSign (renderAmount neg ds fs ++ rest)
      = (neg, ds ++ ((if fs.isEmpty then [] else '.' :: fs) ++ rest)) := by
    cases neg with
    | false =>
      cases ds with
      | nil => exact absurd rfl hds
      | cons d ds' =>
        have : d ≠ '-' := isDigitChar_ne_dash (hdd d (by simp))
        simp [renderAmount, splitSign, this]
    | true => simp [renderAmount, splitSign]
  have hspan1 : takeWhileP isDigitChar
      (ds ++ ((if fs.isEmpty then [] else '.' :: fs) ++ rest))
      = (ds, (if fs.isEmpty then [] else '.' :: fs) ++ rest) := by
    apply takeWhileP_append _ _ _ hdd
    intro c hc
    cases fs with
    | nil =>
      simp only [List.isEmpty_nil, if_true, List.nil_append] at hc
      exact (hrest c hc).1
    | cons f fs' =>
      simp only [List.isEmpty_cons, Bool.false_eq_true, if_false, List.cons_append,
        List.head?_cons, Option.mem_def, Option.some.injEq] at hc
      subst hc; decide
  have hsplitdot2 : (splitDot ((if fs.isEmpty then [] else '.' :: fs) ++ rest)).2
      = fs ++ rest := by
    cases fs with
    | nil =>
      simp only [List.isEmpty_nil, if_true, List.nil_append]
      cases rest with
      | nil => rfl
      | cons c cs =>
        have hc := hrest c (by simp)
        simp [splitDot, hc.2]
    | cons f fs' => simp [splitDot]
  have hspan2 : takeWhileP isDigitChar (fs ++ rest) = (fs, rest) := by
    apply takeWhileP_append _ _ _ hfd
    intro c hc
    exact (hrest c hc).1
  have hfrac : (takeWhileP isDigitChar
      (splitDot ((if fs.isEmpty then [] else '.' :: fs) ++ rest)).2) = (fs, rest) := by
    rw [hsplitdot2, hspan2]
  have hne : ds.isEmpty = false := by simp [List.isEmpty_iff, hds]
  simp only [regexFullMatch, hsign, hspan1, hne, Bool.false_eq_true, if_false, hfrac]

/-! ### Claim C5 -/

/-- C5 counterexample: the claim says a bare amount string with no currency
code gets `CurrencyCode = 'USD'`, but the split of `"12.01"` leaves the
currency `None` — the matched optional group is appended as-is, and it is
absent. -/
theorem split_pricing_bare_counterexample :
    splitPricingValue (some ['1', '2', '.', '0', '1'])
      = (decimalValue ⟨false, ['1', '2'], ['0', '1']⟩, (none : Option (List Char))) ∧
    decimalValue ⟨false, ['1', '2'], ['0', '1']⟩ = 1201 / 100 ∧
    (splitPricingValue (some ['1', '2', '.', '0', '1'])).2 ≠ some usdChars := by
  refine ⟨rfl, ?_, by decide⟩
  have h1 : digitsToNat ['1', '2'] = 12 := by decide
  have h2 : digitsToNat ['0', '1'] = 1 := by decide
  simp only [decimalValue, h1, h2, cond_false, List.length_cons, List.length_nil]
  norm_num

/-- C5 amended: for `"A CCY"` the split yields `(Amount = A, CurrencyCode =
CCY)` and a leading minus on `A` is preserved, but for a bare amount `"A"`
the currency is left `None` rather than defaulting to `'USD'` (the `'USD'`
default applies only to missing/empty cells). -/
theorem split_pricing_amended
    (neg : Bool) (ds fs : List Char) (c1 c2 c3 : Char)
    (hds : ds ≠ []) (hdd : ∀ c ∈ ds, isDigitChar c = true)
    (hfd : ∀ c ∈ fs, isDigitChar c = true)
    (h1 : isUpperChar c1 = true) (h2 : isUpperChar c2 = true)
    (h3 : isUpperChar c3 = true) :
    splitPricingValue (some (renderAmount neg ds fs ++ ' ' :: [c1, c2, c3]))
      = (decimalValue ⟨neg, ds, fs⟩, some [c1, c2, c3]) ∧
    splitPricingValue (some (renderAmount neg ds fs))
      = (decimalValue ⟨neg, ds, fs⟩, none) := by
  have hdsc : ∀ c ∈ ds.head?, isPySpace c = false := by
    intro c hc
    exact isPySpace_of_digit (isDigitChar_of_mem_head? hdd hc)
  have hrender_ne : renderAmount neg ds fs ≠ [] := by
    cases neg with
    | true => simp [renderAmount]
    | false =>
      cases ds with
      | nil => exact absurd rfl hds
      | cons d ds' => simp [renderAmount]
  have hhead : ∀ c ∈ (renderAmount neg ds fs).head?, isPySpace c = false := by
    intro c hc
    cases neg with
    | true =>
      simp only [renderAmount, cond_true, List.cons_append, List.head?_cons,
        Option.mem_def, Option.some.injEq] at hc
      subst hc; decide
    | false =>
      cases ds with
      | nil => exact absurd rfl hds
      | cons d ds' =>
        simp only [renderAmount, cond_false, List.nil_append, List.cons_append,
          List.head?_cons, Option.mem_def, Option.some.injEq] at hc
        subst hc
        exact isPySpace_of_digit (hdd d (by simp))
  constructor
  · -- the "A CCY" form
    have hne : renderAmount neg ds fs ++ ' ' :: [c1, c2, c3] ≠ [] := by
      simp
    have hstrip : pyStrip (renderAmount neg ds fs ++ ' ' :: [c1, c2, c3])
        = renderAmount neg ds fs ++ ' ' :: [c1, c2, c3] := by
      apply pyStrip_eq_self
      · intro c hc
        cases hr : renderAmount neg ds fs with
        | nil => exact absurd hr hrender_ne
        | cons a as =>
          rw [hr] at hc
          simp only [List.cons_append, List.head?_cons, Option.mem_def,
            Option.some.injEq] at hc
          apply hhead
          rw [hr, hc]
          simp
      · intro c hc
        rw [show renderAmount neg ds fs ++ ' ' :: [c1, c2, c3]
              = (renderAmount neg ds fs ++ [' ', c1, c2]) ++ [c3] by simp] at hc
        rw [List.getLast?_concat] at hc
        simp only [Option.mem_def, Option.some.injEq] at hc
        subst hc
        exact isPySpace_of_upper h3
    have hmatch := regexFullMatch_render neg ds fs (' ' :: [c1, c2, c3]) hds hdd hfd
      (by intro c hc; simp only [List.head?_cons, Option.mem_def,
            Option.some.injEq] at hc; subst hc; exact ⟨by decide, by decide⟩)
    simp only [splitPricingValue, if_neg hne, splitPricingChars, hstrip, hmatch]
    have hdrop : (' ' :: [c1, c2, c3]).dropWhile isPySpace = [c1, c2, c3] := by
      rw [List.dropWhile_cons]
      simp only [show isPySpace ' ' = true by decide, if_true]
      exact dropWhileP_eq_self _ _ (by
        intro c hc
        simp only [List.head?_cons, Option.mem_def, Option.some.injEq] at hc
        subst hc
        exact isPySpace_of_upper h1)
    simp only [hdrop, h1, h2, h3, Bool.and_self, if_true]
  · -- the bare form
    have hne : renderAmount neg ds fs ≠ [] := hrender_ne
    have hlast : ∀ c ∈ (renderAmount neg ds fs).getLast?, isPySpace c = false := by
      intro c hc
      have hmem : c ∈ renderAmount neg ds fs := List.mem_of_mem_getLast? hc
      simp only [renderAmount, List.mem_append] at hmem
      rcases hmem with (hmem | hmem) | hmem
      · cases neg with
        | true => simp at hmem; subst hmem; decide
        | false => simp at hmem
      · exact isPySpace_of_digit (hdd c hmem)
      · cases fs with
        | nil => simp at hmem
        | cons f fs' =>
          simp only [List.isEmpty_cons, Bool.false_eq_true, if_false,
            List.mem_cons] at hmem
          rcases hmem with rfl | hmem
          · decide
          · exact isPySpace_of_digit (hfd c (by simp [hmem]))
    have hstrip : pyStrip (renderAmount neg ds fs) = renderAmount neg ds fs :=
      pyStrip_eq_self _ hhead hlast
    have hmatch := regexFullMatch_render neg ds fs [] hds hdd hfd (by simp)
    rw [List.append_nil] at hmatch
    simp only [splitPricingValue, if_neg hne, splitPricingChars, hstrip, hmatch,
      List.dropWhile_nil]

/-- Witness for the amended C5 at `"-12.01 GBP"` and `"-12.01"`: currency
captured, minus preserved, and the bare form's currency left `None`. -/
theorem split_pricing_amended_witness :
    splitPricingValue (some (renderAmount true ['1', '2'] ['0', '1'] ++ ' ' :: ['G', 'B', 'P']))
      = (decimalValue ⟨true, ['1', '2'], ['0', '1']⟩, some ['G', 'B', 'P']) ∧
    splitPricingValue (some (renderAmount true ['1', '2'] ['0', '1']))
      = (decimalValue ⟨true, ['1', '2'], ['0', '1']⟩, none) :=
  split_pricing_amended true ['1', '2'] ['0', '1'] 'G' 'B' 'P'
    (by decide) (by decide) (by decide) (by decide) (by decide) (by decide)

/-! ### Timezone lemmas -/

theorem emod7_shift (d : Int) : ((d + 3) % 7 + 1) % 7 = (d + 4) % 7 := by
  conv_rhs => rw [show d + 4 = d + 3 + 1 from by ring, Int.add_emod (d + 3) 1]
  norm_num

theorem last_sunday_of_march_eq (y : Int) :
    last_sunday_of_march y = euDstStartSec y := by
  simp only [last_sunday_of_march, euDstStartSec, weekdayPy, lastSundayOnOrBefore,
    emod7_shift]

theorem last_sunday_of_october_eq (y : Int) :
    last_sunday_of_october y = euDstEndSec y := by
  simp only [last_sunday_of_october, euDstEndSec, weekdayPy, lastSundayOnOrBefore,
    emod7_shift]

theorem is_dst_eq (t : Int) :
    is_dst t = decide (euDstStartSec (dtYear t) ≤ t ∧ t < euDstEndSec (dtYear t)) := by
  unfold is_dst
  rw [last_sunday_of_march_eq, last_sunday_of_october_eq]

theorem lastSundayOnOrBefore_isSunday (d : Int) :
    weekdayPy (lastSundayOnOrBefore d) = 6 := by
  simp only [weekdayPy, lastSundayOnOrBefore]
  have h := Int.ediv_add_emod (d + 4) 7
  have e : d - (d + 4) % 7 + 3 = -1 + ((d + 4) / 7) * 7 := by omega
  rw [e, Int.add_mul_emod_self]
  decide

theorem firstSundayOnOrAfter_isSunday (d : Int) :
    weekdayPy (firstSundayOnOrAfter d) = 6 := by
  simp only [weekdayPy, firstSundayOnOrAfter]
  have h := Int.ediv_add_emod (3 - d) 7
  have e : d + (3 - d) % 7 + 3 = 6 + (-((3 - d) / 7)) * 7 := by omega
  rw [e, Int.add_mul_emod_self]
  decide

theorem euDstStartSec_2024 : euDstStartSec 2024 = mkDT 2024 3 31 1 0 0 := by decide

theorem euDstEndSec_2024 : euDstEndSec 2024 = mkDT 2024 10 27 1 0 0 := by decide

theorem usDstStartSec_2024 : usDstStartSec 2024 = mkDT 2024 3 10 10 0 0 := by decide

theorem usDstEndSec_2024 : usDstEndSec 2024 = mkDT 2024 11 3 9 0 0 := by decide

/-- The BST/GMT conversion denotes exactly the source instant when read in
Europe/London. -/
theorem convert_bst_sub_london (t : Int) :
    convert_utc_to_bst t - zoneOffsetAt Zone.london t = t := by
  rw [convert_utc_to_bst, is_dst_eq]
  by_cases hP : euDstStartSec (dtYear t) ≤ t ∧ t < euDstEndSec (dtYear t)
  · simp [zoneOffsetAt, hP]
  · simp [zoneOffsetAt, hP]

/-- The MEST/CET conversion denotes exactly the source instant when read
in Europe/Paris. -/
theorem convert_mest_sub_paris (t : Int) :
    convert_utc_to_mest t - zoneOffsetAt Zone.paris t = t := by
  rw [convert_utc_to_mest, is_dst_eq]
  by_cases hP : euDstStartSec (dtYear t) ≤ t ∧ t < euDstEndSec (dtYear t)
  · simp [zoneOffsetAt, hP]
  · simp [zoneOffsetAt, hP]

/-- The MEST/CET conversion, read in America/Los_Angeles, is at least 8
hours ahead of the source instant. -/
theorem convert_mest_sub_la (t : Int) :
    t + 28800 ≤ convert_utc_to_mest t - zoneOffsetAt Zone.losAngeles t := by
  rw [convert_utc_to_mest]
  by_cases h1 : is_dst t = true <;>
    by_cases h2 : usDstStartSec (dtYear t) ≤ t ∧ t < usDstEndSec (dtYear t) <;>
      simp [zoneOffsetAt, h1, h2] <;> omega

theorem convert_bst_eq_london_wall (t : Int) :
    convert_utc_to_bst t = utcToZoneWall Zone.london t := by
  have h := convert_bst_sub_london t
  unfold utcToZoneWall
  omega

theorem convert_mest_eq_paris_wall (t : Int) :
    convert_utc_to_mest t = utcToZoneWall Zone.paris t := by
  have h := convert_mest_sub_paris t
  unfold utcToZoneWall
  omega

/-! ### Claim C3 -/

/-- C3 counterexample: for the US marketplace the transformer applies the
MEST/CET conversion, so the converted value read in the marketplace's zone
(America/Los_Angeles) denotes an instant 9 hours ahead of the source
instant 2024-01-15T12:00:00Z — the claim's "never ahead" fails. -/
theorem timezone_conversion_counterexample :
    ¬ (convertedInstant "US" (mkDT 2024 1 15 12 0 0) ≤ mkDT 2024 1 15 12 0 0) := by
  decide

/-- C3 amended: for the UK and EU marketplaces the converted instant
equals the source instant (in particular it is never ahead of it,
including across the DST boundaries); for US/CA, which the code also runs
through the Europe/Paris conversion, the converted value read in
America/Los_Angeles is at least 8 hours ahead of the source instant. -/
theorem timezone_conversion_amended (t : Int) :
    convertedInstant "UK" t = t ∧
    convertedInstant "DE" t = t ∧
    convertedInstant "IT" t = t ∧
    convertedInstant "ES" t = t ∧
    convertedInstant "FR" t = t ∧
    t + 28800 ≤ convertedInstant "US" t ∧
    t + 28800 ≤ convertedInstant "CA" t :=
  ⟨convert_bst_sub_london t, convert_mest_sub_paris t, convert_mest_sub_paris t,
   convert_mest_sub_paris t, convert_mest_sub_paris t, convert_mest_sub_la t,
   convert_mest_sub_la t⟩

/-! ### Claim C4 -/

/-- C4 counterexample: at 2024-01-15T12:00:00Z the transformer converts
the US marketplace's timestamp with the Europe/Paris offset (+1h), not to
America/Los_Angeles local time (−8h). -/
theorem tz_stage_us_counterexample :
    tzConvertStage "US" (mkDT 2024 1 15 12 0 0)
      ≠ utcToZoneWall Zone.losAngeles (mkDT 2024 1 15 12 0 0) := by
  decide

/-- C4 amended: UK converts to Europe/London and DE/IT/ES/FR to
Europe/Paris as claimed, but the US and CA marketplaces are converted with
the Europe/Paris (CET/CEST) offsets as well — there is no
America/Los_Angeles conversion in the timezone stage. -/
theorem tz_stage_amended (t : Int) :
    tzConvertStage "UK" t = utcToZoneWall Zone.london t ∧
    tzConvertStage "DE" t = utcToZoneWall Zone.paris t ∧
    tzConvertStage "IT" t = utcToZoneWall Zone.paris t ∧
    tzConvertStage "ES" t = utcToZoneWall Zone.paris t ∧
    tzConvertStage "FR" t = utcToZoneWall Zone.paris t ∧
    tzConvertStage "US" t = utcToZoneWall Zone.paris t ∧
    tzConvertStage "CA" t = utcToZoneWall Zone.paris t :=
  ⟨convert_bst_eq_london_wall t, convert_mest_eq_paris_wall t,
   convert_mest_eq_paris_wall t, convert_mest_eq_paris_wall t,
   convert_mest_eq_paris_wall t, convert_mest_eq_paris_wall t,
   convert_mest_eq_paris_wall t⟩

/-! ### Claim C6 -/

/-- C6 counterexample: ten failures interleaved with one success open the
circuit — a success while CLOSED does not reset `failure_count` (only a
HALF_OPEN success does), so the failures need not be consecutive. -/
theorem circuit_breaker_interleaved_counterexample :
    (cbRunTrace (CircuitBreaker.init 10 300)
      [(0, false), (1, false), (2, false), (3, false), (4, false),
       (5, true),
       (6, false), (7, false), (8, false), (9, false), (10, false)]).state
      = CBState.opened ∧
    (cbRunTrace (CircuitBreaker.init 10 300)
      [(0, false), (1, false), (2, false), (3, false), (4, false),
       (5, true)]).failure_count = 5 := by
  constructor
  · decide
  · decide

/-- C6 amended: from CLOSED, a successful call leaves the state (and in
particular the failure counter) unchanged; a failed call increments the
counter and opens the circuit exactly when the cumulative count — not a
consecutive count — reaches the threshold; only a HALF_OPEN success
resets the counter. -/
theorem circuit_breaker_amended (cb : CircuitBreaker) (now : Int) :
    (({ cb with state := CBState.closed }).call now true).1
      = { cb with state := CBState.closed } ∧
    ((({ cb with state := CBState.closed }).call now false).1.failure_count
      = cb.failure_count + 1) ∧
    (((({ cb with state := CBState.closed }).call now false).1.state = CBState.opened)
      ↔ cb.failure_threshold ≤ cb.failure_count + 1) ∧
    ((({ cb with state := CBState.halfOpen }).call now true).1
      = { cb with state := CBState.closed, failure_count := 0 }) := by
  refine ⟨rfl, ?_, ?_, rfl⟩
  · show (runProtected { cb with state := CBState.closed } now false).1.failure_count
      = cb.failure_count + 1
    unfold runProtected
    by_cases h : cb.failure_threshold ≤ cb.failure_count + 1 <;> simp [h]
  · show ((runProtected { cb with state := CBState.closed } now false).1.state
        = CBState.opened) ↔ cb.failure_threshold ≤ cb.failure_count + 1
    unfold runProtected
    by_cases h : cb.failure_threshold ≤ cb.failure_count + 1 <;> simp [h]

/-! ### Claim C7 -/

/-- C7 counterexample: a high-priority throttled acquire (rate 0.5, no
tokens) sleeps `0.9 · (1-0)/0.5 = 1.8` seconds; the refill accrued during
that sleep would be `0.9` tokens, so the claim's post-state is
`0.9 - 1 = -0.1` — but the code stores `0.0`. -/
theorem rate_limiter_counterexample :
    ((RateLimiter.mk (1 / 2) 30 0 0 0 0).acquire 0 RLPriority.high).1.tokens = 0 ∧
    ((RateLimiter.mk (1 / 2) 30 0 0 0 0).acquire 0 RLPriority.high).2 = 9 / 5 ∧
    (0 : ℚ) + (9 / 5) * (1 / 2) - 1 ≠
      ((RateLimiter.mk (1 / 2) 30 0 0 0 0).acquire 0 RLPriority.high).1.tokens := by
  refine ⟨?_, ?_, ?_⟩ <;> norm_num [RateLimiter.acquire]

/-- C7 amended: an acquire refills by elapsed·rate capped at the burst
limit; when fewer than one token is available it sleeps `(1-tokens)/rate`
scaled by priority (high ×0.9, low ×1.2) and then stores a token count of
`0.0` — which equals the refilled level including the sleep's refill minus
one only for normal priority — and when at least one token is available it
consumes exactly one. -/
theorem rate_limiter_acquire_amended (rl : RateLimiter) (now : ℚ) (p : RLPriority) :
    (min rl.burst_limit (rl.tokens + (now - rl.last_update) * rl.rate_limit) < 1 →
      (rl.acquire now p).2
          = (1 - min rl.burst_limit (rl.tokens + (now - rl.last_update) * rl.rate_limit))
              / rl.rate_limit * priorityFactor p ∧
      (rl.acquire now p).1.tokens = 0 ∧
      (rl.acquire now p).1.throttled_requests = rl.throttled_requests + 1) ∧
    (1 ≤ min rl.burst_limit (rl.tokens + (now - rl.last_update) * rl.rate_limit) →
      (rl.acquire now p).1.tokens
          = min rl.burst_limit (rl.tokens + (now - rl.last_update) * rl.rate_limit) - 1 ∧
      (rl.acquire now p).2 = 0) ∧
    (rl.acquire now p).1.last_update = now ∧
    (rl.acquire now p).1.total_requests = rl.total_requests + 1 := by
  unfold RateLimiter.acquire
  by_cases h : min rl.burst_limit (rl.tokens + (now - rl.last_update) * rl.rate_limit) < 1
  · refine ⟨fun _ => ⟨?_, by simp [h], by simp [h]⟩, fun h2 => absurd h (by linarith), by simp [h], by simp [h]⟩
    cases p <;> simp [h, priorityFactor]
  · refine ⟨fun h2 => absurd h2 h, fun _ => ⟨by simp [h], by simp [h]⟩, by simp [h], by simp [h]⟩

/-- Witness for the amended C7: the concrete throttled high-priority
acquire of the counterexample, through the amended theorem. -/
theorem rate_limiter_acquire_amended_witness :
    ((RateLimiter.mk (1 / 2) 30 0 0 0 0).acquire 0 RLPriority.high).2
        = (1 - min (30 : ℚ) ((0 : ℚ) + ((0 : ℚ) - 0) * (1 / 2))) / (1 / 2)
            * priorityFactor RLPriority.high ∧
    ((RateLimiter.mk (1 / 2) 30 0 0 0 0).acquire 0 RLPriority.high).1.tokens = 0 := by
  have h := (rate_limiter_acquire_amended (RateLimiter.mk (1 / 2) 30 0 0 0 0) 0
    RLPriority.high).1 (by norm_num)
  exact ⟨h.1, h.2.1⟩

/-! ### Claim C9 -/

/-- C9: a merged row whose `SalesChannel` is neither one of the four
configured VAT channels nor `'Non-Amazon'` (e.g. `Amazon.com`,
`Amazon.ca`, `Amazon.fr`) keeps all six computed columns at their
initialized `0.0` through the VAT stage and its rounding, regardless of
the row's amounts; the MSSQL projection renames and the AZURE `Total`
column therefore carry zeros for such rows. -/
theorem vat_unconfigured_channel_zeroed (row : VatRow)
    (h : ∀ ch ∈ row.salesChannel,
      ch ∉ ["Amazon.es", "Amazon.de", "Amazon.it", "Amazon.co.uk", "Non-Amazon"]) :
    vatStageRowRounded row = ⟨0, 0, 0, 0, 0, 0⟩ ∧
    toMssqlComputed (vatStageRowRounded row) = ⟨0, 0, 0, 0, 0, 0⟩ ∧
    azureTotalOf (vatStageRowRounded row) = 0 := by
  have hne : ∀ s : String,
      s ∈ ["Amazon.es", "Amazon.de", "Amazon.it", "Amazon.co.uk", "Non-Amazon"] →
      row.salesChannel ≠ some s := by
    intro s hs he
    exact h s (by rw [he]; rfl) hs
  have h1 := hne "Amazon.es" (by simp)
  have h2 := hne "Amazon.de" (by simp)
  have h3 := hne "Amazon.it" (by simp)
  have h4 := hne "Amazon.co.uk" (by simp)
  have h5 := hne "Non-Amazon" (by simp)
  have hz : vatStageRow row = ⟨0, 0, 0, 0, 0, 0⟩ := by
    simp [vatStageRow, VAT_RATES, h1, h2, h3, h4, h5]
  have hr : round2 0 = 0 := by
    simp [round2, roundHalfEven]
  refine ⟨?_, ?_, ?_⟩ <;>
    simp [vatStageRowRounded, hz, hr, toMssqlComputed, azureTotalOf]

/-- Witness for C9: an `Amazon.com` row with a nonzero `ItemPrice.Amount`
still reaches the outputs with zeroed computed prices. -/
theorem vat_unconfigured_channel_zeroed_witness :
    vatStageRowRounded ⟨some "Amazon.com", some 5, some (1201 / 100), some 2⟩
      = ⟨0, 0, 0, 0, 0, 0⟩ ∧
    toMssqlComputed (vatStageRowRounded
      ⟨some "Amazon.com", some 5, some (1201 / 100), some 2⟩) = ⟨0, 0, 0, 0, 0, 0⟩ ∧
    azureTotalOf (vatStageRowRounded
      ⟨some "Amazon.com", some 5, some (1201 / 100), some 2⟩) = 0 :=
  vat_unconfigured_channel_zeroed ⟨some "Amazon.com", some 5, some (1201 / 100), some 2⟩
    (by decide)

/-! ### Claim C1 -/

/-- C1 counterexample: a day run where the fetch phase succeeds but both
sink saves fail (both dedup queries error out, so `save_simple` reports
overall `success=false` with 0 rows saved) still advances the high-water
mark to the day's `23:59:59Z`, because the task only checks the HTTP
status of `/api/fetch-data/` — the claim's "stays unchanged and the day is
retried" fails. -/
theorem last_run_advance_counterexample :
    (saveSimple ⟨fun _ => .error (), fun _ => true⟩ ⟨fun _ => .error (), fun _ => true⟩
        ⟨true, [("o1", "i1")]⟩ ⟨true, [("o1", "sku1")]⟩ "APJ6JRA9NG5V4").success
      = false ∧
    (saveSimple ⟨fun _ => .error (), fun _ => true⟩ ⟨fun _ => .error (), fun _ => true⟩
        ⟨true, [("o1", "i1")]⟩ ⟨true, [("o1", "sku1")]⟩
        "APJ6JRA9NG5V4").total_records_saved = 0 ∧
    (fetch_orders_for_marketplace (some (mkDT 2024 3 3 23 59 59))
        (mkDT 2024 3 4 0 0 0) (mkDT 2024 3 4 23 59 59) true
        (some (saveSimple ⟨fun _ => .error (), fun _ => true⟩
          ⟨fun _ => .error (), fun _ => true⟩
          ⟨true, [("o1", "i1")]⟩ ⟨true, [("o1", "sku1")]⟩ "APJ6JRA9NG5V4"))).1
      = some (mkDT 2024 3 4 23 59 59) ∧
    some (mkDT 2024 3 4 23 59 59) ≠ some (mkDT 2024 3 3 23 59 59) := by
  refine ⟨by decide, by decide, by decide, by decide⟩

/-- C1 amended: `last_run` advances to the requested day's end iff the
`/api/fetch-data/` call returned 2xx (i.e. the fetch phase succeeded) and
the idempotency guard matches the expected window — independently of
whether any sink saved any row; only a fetch failure (or a stale window)
leaves `last_run` unchanged for a retry. -/
theorem last_run_advance_amended (lastRun : Option Int) (startReq endReq : Int)
    (fetchOk : Bool) (saveRes saveRes' : Option SaveResults) :
    fetch_orders_for_marketplace lastRun startReq endReq fetchOk saveRes
      = fetch_orders_for_marketplace lastRun startReq endReq fetchOk saveRes' ∧
    (fetch_orders_for_marketplace lastRun startReq endReq fetchOk saveRes).1
      = (if (dayWindowAfter lastRun).1 = startReq ∧ fetchOk = true
         then some endReq else lastRun) := by
  by_cases hg : (dayWindowAfter lastRun).1 = startReq <;>
    by_cases hf : fetchOk = true <;>
      simp [fetch_orders_for_marketplace, fetchDataHttpOk, hg, hf]

/-! ### Claim C2 -/

/-- C2: for any input batch whose natural keys all already exist in the
corresponding sink (the pre-insert dedup query returns a set containing
every batch key), re-running `save_simple` inserts 0 new rows into each
sink, reports `records_skipped` equal to the input size, and returns
`success=true` for both sinks. -/
theorem save_simple_rerun_idempotent
    (msink asink : SinkOracle) (mssqlDf azureDf : Frame) (mid tbl : String)
    (mex aex : List RowKey)
    (hmap : MARKETPLACE_TABLE_MAPPING mid = some tbl)
    (hmne : mssqlDf.rows ≠ []) (hane : azureDf.rows ≠ [])
    (hmk : mssqlDf.hasKeyCols = true) (hak : azureDf.hasKeyCols = true)
    (hmq : msink.queryExisting (branchOrderIds mssqlDf) = .ok mex)
    (haq : asink.queryExisting (branchOrderIds azureDf) = .ok aex)
    (hmall : ∀ k ∈ mssqlDf.rows, k ∈ mex)
    (haall : ∀ k ∈ azureDf.rows, k ∈ aex) :
    saveSimple msink asink mssqlDf azureDf mid =
      { success := true
        mssql_result := some ⟨true, 0, mssqlDf.rows.length⟩
        azure_result := some ⟨true, 0, azureDf.rows.length⟩
        total_records_saved := 0
        mssql_success := true
        azure_success := true } := by
  unfold saveSimple
  rw [hmap, sinkBranch_all_existing msink tbl mssqlDf mex hmne hmk hmq hmall,
      sinkBranch_all_existing asink _ azureDf aex hane hak haq haall]
  rfl

/-- Witness for C2: a one-row batch per sink whose key already exists in the
sink; the insert oracle is `fun _ => false`, so a successful result also
shows the insert was never attempted. -/
theorem save_simple_rerun_idempotent_witness :
    saveSimple ⟨fun _ => .ok [("o1", "i1")], fun _ => false⟩
        ⟨fun _ => .ok [("o1", "sku1")], fun _ => false⟩
        ⟨true, [("o1", "i1")]⟩ ⟨true, [("o1", "sku1")]⟩ "APJ6JRA9NG5V4" =
      { success := true
        mssql_result := some ⟨true, 0, 1⟩
        azure_result := some ⟨true, 0, 1⟩
        total_records_saved := 0
        mssql_success := true
        azure_success := true } :=
  save_simple_rerun_idempotent _ _ _ _ _ "amazon_api_it" _ _ rfl
    (by simp) (by simp) rfl rfl rfl rfl
    (by intro k hk; simpa using hk) (by intro k hk; simpa using hk)

/-! ### Claim C8 -/

/-- C8: if the pre-insert dedup query against the MSSQL sink fails, that
sink appends no rows (the result is the same for every insert oracle) and
is reported `success=false`, while the AZURE sink's save proceeds
unaffected (its outcome equals that of its stand-alone branch); the overall
result is success iff at least one sink succeeded. -/
theorem save_simple_dedup_failure_isolated
    (msink asink : SinkOracle) (mssqlDf azureDf : Frame) (mid tbl : String)
    (hmap : MARKETPLACE_TABLE_MAPPING mid = some tbl)
    (hmne : mssqlDf.rows ≠ []) (hmk : mssqlDf.hasKeyCols = true)
    (hq : msink.queryExisting (branchOrderIds mssqlDf) = .error ()) :
    (saveSimple msink asink mssqlDf azureDf mid).mssql_success = false ∧
    (saveSimple msink asink mssqlDf azureDf mid).mssql_result = some ⟨false, 0, 0⟩ ∧
    (∀ ins ins' : List RowKey → Bool,
      saveSimple ⟨msink.queryExisting, ins⟩ asink mssqlDf azureDf mid =
        saveSimple ⟨msink.queryExisting, ins'⟩ asink mssqlDf azureDf mid) ∧
    (saveSimple msink asink mssqlDf azureDf mid).azure_result
      = (sinkBranch asink (some "stg_tr_amazon_raw") azureDf).result ∧
    (saveSimple msink asink mssqlDf azureDf mid).azure_success
      = (sinkBranch asink (some "stg_tr_amazon_raw") azureDf).success ∧
    (saveSimple msink asink mssqlDf azureDf mid).success
      = (saveSimple msink asink mssqlDf azureDf mid).azure_success := by
  have habort := sinkBranch_query_failure msink tbl mssqlDf hmne hmk hq
  refine ⟨?_, ?_, ?_, rfl, rfl, ?_⟩
  · simp [saveSimple, hmap, habort]
  · simp [saveSimple, hmap, habort]
  · intro ins ins'
    have h1 := sinkBranch_query_failure ⟨msink.queryExisting, ins⟩ tbl mssqlDf hmne hmk hq
    have h2 := sinkBranch_query_failure ⟨msink.queryExisting, ins'⟩ tbl mssqlDf hmne hmk hq
    simp [saveSimple, hmap, h1, h2]
  · simp [saveSimple, hmap, habort]

/-- Witness for C8: MSSQL dedup query fails on a one-row batch while the
AZURE branch succeeds; the sink is aborted for both a succeeding and a
failing insert oracle, and the overall result follows the AZURE sink. -/
theorem save_simple_dedup_failure_isolated_witness :
    ((saveSimple ⟨fun _ => .error (), fun _ => true⟩
        ⟨fun _ => .ok [], fun _ => true⟩
        ⟨true, [("o1", "i1")]⟩ ⟨true, [("o2", "sku1")]⟩
        "A1F83G8C2ARO7P").mssql_success = false) ∧
    ((saveSimple ⟨fun _ => .error (), fun _ => true⟩
        ⟨fun _ => .ok [], fun _ => true⟩
        ⟨true, [("o1", "i1")]⟩ ⟨true, [("o2", "sku1")]⟩
        "A1F83G8C2ARO7P").azure_success = true) ∧
    ((saveSimple ⟨fun _ => .error (), fun _ => true⟩
        ⟨fun _ => .ok [], fun _ => true⟩
        ⟨true, [("o1", "i1")]⟩ ⟨true, [("o2", "sku1")]⟩
        "A1F83G8C2ARO7P").success = true) := by
  have h := save_simple_dedup_failure_isolated
    ⟨fun _ => .error (), fun _ => true⟩ ⟨fun _ => .ok [], fun _ => true⟩
    ⟨true, [("o1", "i1")]⟩ ⟨true, [("o2", "sku1")]⟩
    "A1F83G8C2ARO7P" "amazon_api_uk" rfl (by simp) rfl rfl
  exact ⟨h.1, by decide, by decide⟩

/-! ### Claim C10 -/

/-- C10: an empty MSSQL frame (or a marketplace without a table mapping)
makes the MSSQL sink report `success=false` with no result dictionary and
no database access (the outcome is the same for every oracle), an empty
AZURE frame likewise yields `azure_success=false`; hence a day with zero
records returns overall `success=false` and `total_records_saved=0`. -/
theorem save_simple_zero_records
    (msink msink' asink asink' : SinkOracle)
    (mssqlDf azureDf adf2 mdf2 : Frame) (mid : String)
    (hm : mssqlDf.rows = [] ∨ MARKETPLACE_TABLE_MAPPING mid = none)
    (ha : azureDf.rows = []) :
    (saveSimple msink asink mssqlDf adf2 mid).mssql_success = false ∧
    (saveSimple msink asink mdf2 azureDf mid).azure_success = false ∧
    saveSimple msink asink mssqlDf azureDf mid =
      { success := false, mssql_result := none, azure_result := none,
        total_records_saved := 0, mssql_success := false, azure_success := false } ∧
    saveSimple msink asink mssqlDf azureDf mid
      = saveSimple msink' asink' mssqlDf azureDf mid := by
  have hmB := sinkBranch_skipped msink (MARKETPLACE_TABLE_MAPPING mid) mssqlDf hm
  have hmB' := sinkBranch_skipped msink' (MARKETPLACE_TABLE_MAPPING mid) mssqlDf hm
  have haB := sinkBranch_skipped asink (some "stg_tr_amazon_raw") azureDf (Or.inl ha)
  have haB' := sinkBranch_skipped asink' (some "stg_tr_amazon_raw") azureDf (Or.inl ha)
  refine ⟨?_, ?_, ?_, ?_⟩
  · simp [saveSimple, hmB]
  · simp [saveSimple, haB]
  · simp [saveSimple, hmB, haB]
  · simp [saveSimple, hmB, hmB', haB, haB']

/-- Witness for C10: both frames empty for the IT marketplace, with oracles
that would succeed if consulted. -/
theorem save_simple_zero_records_witness :
    (saveSimple ⟨fun _ => .ok [], fun _ => true⟩ ⟨fun _ => .ok [], fun _ => true⟩
        ⟨true, []⟩ ⟨true, []⟩ "APJ6JRA9NG5V4").success = false ∧
    (saveSimple ⟨fun _ => .ok [], fun _ => true⟩ ⟨fun _ => .ok [], fun _ => true⟩
        ⟨true, []⟩ ⟨true, []⟩ "APJ6JRA9NG5V4").total_records_saved = 0 := by
  have h := save_simple_zero_records
    ⟨fun _ => .ok [], fun _ => true⟩ ⟨fun _ => .ok [], fun _ => true⟩
    ⟨fun _ => .ok [], fun _ => true⟩ ⟨fun _ => .ok [], fun _ => true⟩
    ⟨true, []⟩ ⟨true, []⟩ ⟨true, []⟩ ⟨true, []⟩ "APJ6JRA9NG5V4"
    (Or.inl rfl) rfl
  exact ⟨by rw [h.2.2.1], by rw [h.2.2.1]⟩

end AmazonConnector
